import Mathlib

/-!
Verification development for the EXR-splitting comp script
(`pa_SplitEXR.py`).  The Python source is shallowly embedded: each host
side effect (format-slot writes, node creation, graph lock/undo) is made
explicit as data, stateful plugins thread their state, and Python
exceptions become `Except` errors.  String primitives (`str.split('.')`,
`str.lower()`, `str.upper()`, substring containment) are embedded as
structurally recursive functions over character lists so that every
definition evaluates by kernel reduction.
-/

namespace PaSplitEXR

/-- The channel list of a layer: pairs of (short channel key, raw channel name). -/
abbrev Chans := List (String × String)

/-! ## String primitives -/

/-- Python `s.split(sep)` for a one-character separator: always returns at
least one (possibly empty) segment; consecutive separators yield empty
segments. -/
def splitSep (sep : Char) : List Char → List (List Char)
  | [] => [[]]
  | c :: cs =>
    let r := splitSep sep cs
    if c = sep then [] :: r
    else
      match r with
      | [] => [[c]]
      | s :: rest => (c :: s) :: rest

/-- Python `sep.join(segments)` for a one-character separator. -/
def joinSep (sep : Char) : List (List Char) → List Char
  | [] => []
  | [s] => s
  | s :: rest => s ++ sep :: joinSep sep rest

/-- Python `s.lower()` (ASCII case folding, the only case arising here). -/
def lowerStr (s : String) : String := String.mk (s.toList.map Char.toLower)

/-- Python `s.upper()` (ASCII case folding, the only case arising here). -/
def upperStr (s : String) : String := String.mk (s.toList.map Char.toUpper)

/-- Contiguous-sublist test on character lists. -/
def infixAux (n : List Char) : List Char → Bool
  | [] => n.isEmpty
  | c :: t => n.isPrefixOf (c :: t) || infixAux n t

/-- Python `needle in haystack` for strings: contiguous substring test. -/
def strContains (haystack needle : String) : Bool :=
  infixAux needle.toList haystack.toList

/-! ## Channel-name parser / layer grouper (`split_multilayer_exr`, lines 300-311) -/

def namespace_separator : Char := '.'

/-- The per-channel computation of the grouping loop in `split_multilayer_exr`:
`s = channel.split("."); if len(s) > 1: key = s[-1]; layer_name = ".".join(s[0:-1])
else: key = channel; layer_name = "default"`, then `key = key.lower()`.
Returns `(layer_name, key)`. -/
def channelLayerKey (channel : String) : String × String :=
  let s := splitSep namespace_separator channel.toList
  if s.length > 1 then
    (String.mk (joinSep namespace_separator s.dropLast),
     lowerStr (String.mk (s.getLastD [])))
  else
    ("default", lowerStr channel)

/-- Embeds the Python-dict update `if not layer_name in layers: layers[layer_name] = []`
followed by `layers[layer_name].append(pair)`: insertion-ordered association list,
appending the pair to the existing entry or a fresh entry at the end. -/
def addChan (layers : List (String × Chans)) (layer_name : String)
    (pair : String × String) : List (String × Chans) :=
  match layers with
  | [] => [(layer_name, [pair])]
  | (n, ps) :: rest =>
    if n = layer_name then (n, ps ++ [pair]) :: rest
    else (n, ps) :: addChan rest layer_name pair

/-- The grouping loop of `split_multilayer_exr` over the host-reported channel
names, producing the `layers` mapping in insertion order. -/
def split_channels (sourceChannels : List String) : List (String × Chans) :=
  sourceChannels.foldl
    (fun layers channel =>
      let lk := channelLayerKey channel
      addChan layers lk.1 (lk.2, channel))
    []

/-! Specification-side grouping function, written from the words of the spec
("split each identifier on `.`; if more than one segment, the layer key is all
segments joined by `.` except the last, and the channel key is the last segment
lower-cased; if exactly one segment, layer key is `"default"` and channel key is
the lower-cased identifier; within each layer the pairs preserve input order;
layer iteration order is first-seen order"). -/

def specLayerName (channel : String) : String :=
  let s := splitSep '.' channel.toList
  if s.length > 1 then String.mk (joinSep '.' s.dropLast) else "default"

def specChanKey (channel : String) : String :=
  let s := splitSep '.' channel.toList
  if s.length > 1 then lowerStr (String.mk (s.getLastD [])) else lowerStr channel

/-- The list of first occurrences, in first-seen order. -/
def firstSeen (xs : List String) : List String :=
  xs.foldl (fun acc x => if x ∈ acc then acc else acc ++ [x]) []

/-- Spec-side grouping: layers in first-seen order, the channel list of each layer
being the input subsequence belonging to it, in input order. -/
def split_channels_spec (cs : List String) : List (String × Chans) :=
  (firstSeen (cs.map specLayerName)).map
    (fun l => (l, (cs.filter (fun c => specLayerName c = l)).map
      (fun c => (specChanKey c, c))))

/-! ## DefaultPlugin (`DefaultPlugin.process_layer`, lines 164-197) -/

/-- The five OpenEXRFormat slots this script writes on a new loader. -/
structure EXRFmt where
  RedName : String
  GreenName : String
  BlueName : String
  AlphaName : String
  ZName : String
deriving DecidableEq, Repr

def CHANNEL_NO_MATCH : String := "SomethingThatWontMatchHopefully"

/-- All five slots reset to the sentinel, as done right after creating the
new loader (lines 174-178). -/
def initFmt : EXRFmt :=
  ⟨CHANNEL_NO_MATCH, CHANNEL_NO_MATCH, CHANNEL_NO_MATCH, CHANNEL_NO_MATCH,
   CHANNEL_NO_MATCH⟩

/-- The `channel_mappings` dict of `DefaultPlugin`: `none` for a key absent
from the dict. -/
def channel_mappings (c : String) : Option String :=
  if c = "r" then some "RedName"
  else if c = "g" then some "GreenName"
  else if c = "b" then some "BlueName"
  else if c = "a" then some "AlphaName"
  else if c = "u" then some "RedName"
  else if c = "v" then some "GreenName"
  else if c = "w" then some "BlueName"
  else if c = "x" then some "RedName"
  else if c = "y" then some "GreenName"
  else if c = "z" then some "BlueName"
  else none

/-- Embeds `fmt[mapping] = raw_channel` for the slot names used by the script. -/
def setFmtField (fmt : EXRFmt) (field raw : String) : EXRFmt :=
  if field = "RedName" then { fmt with RedName := raw }
  else if field = "GreenName" then { fmt with GreenName := raw }
  else if field = "BlueName" then { fmt with BlueName := raw }
  else if field = "AlphaName" then { fmt with AlphaName := raw }
  else if field = "ZName" then { fmt with ZName := raw }
  else fmt

/-- The step of the channel loop (lines 180-185): an unmapped key logs
`Unknown channel: ...` at error level and is skipped (`continue`); a mapped
key writes its slot. State: (format slots, error log). -/
def defaultChannelStep (st : EXRFmt × List String) (p : String × String) :
    EXRFmt × List String :=
  match channel_mappings p.1 with
  | none => (st.1, st.2 ++ ["Unknown channel: " ++ p.1])
  | some m => (setFmtField st.1 m p.2, st.2)

/-- The channel loop of `DefaultPlugin.process_layer` starting from the
sentinel-reset format and an empty error log. -/
def default_channel_loop (channels : Chans) : EXRFmt × List String :=
  channels.foldl defaultChannelStep (initFmt, [])

/-- Embeds `DefaultPlugin.process_layer` after the channel loop.  Line 187 reads
the conjunction of the alpha-fallback option with `not "a" in channels.keys()`, but
`channels` is a list of pairs (built in `split_multilayer_exr`), not a dict,
so evaluating `channels.keys()` raises `AttributeError`; with the option
disabled the conjunction short-circuits and the method returns the new
loader.  Result: the written format slots and the error log. -/
def default_process_layer (alpha_fallback : Bool)
    (layers : List (String × Chans)) (channels : Chans) :
    Except String (EXRFmt × List String) :=
  let st := default_channel_loop channels
  if alpha_fallback then
    Except.error "AttributeError: list object has no attribute keys"
  else
    Except.ok st

/-! ## Plugin results and the dispatch loop (`split_multilayer_exr`, lines 319-336) -/

/-- The three kinds of `process_layer` return values the dispatch loop
distinguishes: Python `False` (rejected), a value with a `GetAttrs`
attribute (a new node), and any other truthy value. -/
inductive PRes (τ : Type) where
  | rejected : PRes τ
  | node : τ → PRes τ
  | other : PRes τ
deriving DecidableEq, Repr

/-- The inner loop over plugins for one layer: call each plugin in order,
stopping at the first non-false result; `none` when every plugin rejects. -/
def dispatch_layer {τ : Type} (plugins : List (String → Chans → PRes τ))
    (layer_name : String) (channels : Chans) : Option (PRes τ) :=
  match plugins with
  | [] => none
  | p :: rest =>
    match p layer_name channels with
    | PRes.rejected => dispatch_layer rest layer_name channels
    | r => some r

/-- The outer loop over layers: a node result is appended to `new_tools`,
any other outcome leaves `new_tools` unchanged. -/
def process_layers {τ : Type} (plugins : List (String → Chans → PRes τ))
    (layers : List (String × Chans)) : List τ :=
  layers.foldl
    (fun new_tools l =>
      match dispatch_layer plugins l.1 l.2 with
      | some (PRes.node t) => new_tools ++ [t]
      | _ => new_tools)
    []

/-! ## CryptomattePlugin (`CryptomattePlugin.process_layer`, lines 200-221) -/

/-- Embeds `"crypto" in layer_name.lower()`. -/
def crypto_accepts (layer_name : String) : Bool :=
  strContains (lowerStr layer_name) "crypto"

/-- One call of `CryptomattePlugin.process_layer`: threads the
`made_crypto` flag; the single created node is the `node` result of the
first accepted layer. -/
def crypto_process_layer (made_crypto : Bool) (layer_name : String) :
    Bool × PRes Unit :=
  if ¬ crypto_accepts layer_name then (made_crypto, PRes.rejected)
  else if made_crypto then (made_crypto, PRes.other)
  else (true, PRes.node ())

/-- The sequence of `CryptomattePlugin.process_layer` results over the
layers of one splitting operation, starting from the given flag. -/
def crypto_run (made_crypto : Bool) : List String → List (PRes Unit)
  | [] => []
  | ln :: rest =>
    let st := crypto_process_layer made_crypto ln
    st.2 :: crypto_run st.1 rest

/-- The `made_crypto` flag after processing the given layers. -/
def crypto_flag_after (made_crypto : Bool) (lns : List String) : Bool :=
  lns.foldl (fun m ln => (crypto_process_layer m ln).1) made_crypto

/-! ## VrayPlugin (`VrayPlugin.process_layer`, lines 245-278) -/

/-- The `pos_remappings` dict: `.get(channel, channel)`. -/
def pos_remap (c : String) : String :=
  if c = "r" then "x" else if c = "g" then "y" else if c = "b" then "z" else c

/-- The `layer_name_mappings` dict, in its (insertion) iteration order. -/
def layer_name_mappings : List (String × String) :=
  [("normal", "NormName"), ("pos", "PosName"), ("vel", "VelName")]

/-- Embeds `next((l for l in self.layer_name_mappings if l in layer_name.lower()), None)`
paired with its dict value. -/
def vray_find_mapping (layer_name : String) : Option (String × String) :=
  layer_name_mappings.find? (fun p => strContains (lowerStr layer_name) p.1)

/-- The destination OpenEXRFormat attribute for one channel key: RGB→XYZ
remap, then the world-position y/z swap when the flip option is enabled,
then upper-case plus the attribute-group name. -/
def vray_channel_dest (flip_worldpos_axis : Bool) (mapping_name mapping : String)
    (channel : String) : String :=
  let c := pos_remap channel
  let c :=
    if mapping_name = "pos" then
      if flip_worldpos_axis then
        if c = "z" then "y" else if c = "y" then "z" else c
      else c
    else c
  upperStr c ++ mapping

/-- Embeds `VrayPlugin.process_layer`: `none` models returning `False`; `some l`
models returning `True` after writing the listed
(destination attribute, raw channel) pairs on the format of the existing loader. -/
def vray_process_layer (use_aux_channels flip_worldpos_axis : Bool)
    (layer_name : String) (channels : Chans) : Option (List (String × String)) :=
  if ¬ use_aux_channels then none
  else
    match vray_find_mapping layer_name with
    | none => none
    | some (mapping_name, mapping) =>
      some (channels.map
        (fun p => (vray_channel_dest flip_worldpos_axis mapping_name mapping p.1,
                   p.2)))

/-! ## `is_exr_loader` / `is_multipart_exr` / `split_exr` (lines 74-91, 392-399) -/

/-- The attributes of a loader tool that the dispatcher inspects:
`TOOLST_Clip_FormatName` and `Clip1.OpenEXRFormat.Part`. -/
structure ToolM where
  clipFormatName : String
  Part : Option String
deriving DecidableEq, Repr

/-- Embeds `is_exr_loader` (lines 85-91). -/
def is_exr_loader (t : ToolM) : Bool :=
  t.clipFormatName = "OpenEXRFormat"

/-- Embeds `is_multipart_exr` (lines 74-82): requires an EXR loader whose `Part`
input is not `None`. -/
def is_multipart_exr (t : ToolM) : Bool :=
  if ¬ is_exr_loader t then false else t.Part.isSome

/-- What `split_exr` (lines 392-399) does with one tool: the multi-part
path, the multi-layer path, or—when neither `if` branch assigned
`new_tools`—the unbound-local failure at `if not new_tools:`. -/
inductive SplitOutcome where
  | multipart : SplitOutcome
  | multilayer : SplitOutcome
  | nameError : SplitOutcome
deriving DecidableEq, Repr

/-- Path selection in `split_exr`. -/
def split_exr_m (t : ToolM) : SplitOutcome :=
  if is_multipart_exr t then SplitOutcome.multipart
  else if is_exr_loader t then SplitOutcome.multilayer
  else SplitOutcome.nameError

/-- The loop over selected tools in `split_exr_script`: the first tool whose
`split_exr` call raises aborts the batch with that exception. -/
def split_exr_batch : List ToolM → Except String Unit
  | [] => Except.ok ()
  | t :: rest =>
    match split_exr_m t with
    | SplitOutcome.nameError =>
      Except.error "UnboundLocalError: local variable new_tools referenced before assignment"
    | _ => split_exr_batch rest

/-! ## Orchestration lock/undo structure (`split_exr_script`, lines 402-414) -/

/-- The host state the orchestration touches: graph lock, open undo
transaction, and call counters for the cleanup operations. -/
structure HostState where
  locked : Bool
  undoOpen : Bool
  unlockCount : Nat
  endUndoCount : Nat
  undoEndedWith : Option Bool
deriving DecidableEq, Repr

/-- Embeds `comp.StartUndo("Split EXR")`. -/
def startUndo (s : HostState) : HostState := { s with undoOpen := true }

/-- Embeds `comp.Lock()`. -/
def lockComp (s : HostState) : HostState := { s with locked := true }

/-- Embeds `comp.Unlock()`. -/
def unlockComp (s : HostState) : HostState :=
  { s with locked := false, unlockCount := s.unlockCount + 1 }

/-- Embeds `comp.EndUndo(keep)`: closes the transaction; `keep = true` keeps it as
a completed, undoable action. -/
def endUndo (s : HostState) (keep : Bool) : HostState :=
  { s with undoOpen := false, endUndoCount := s.endUndoCount + 1,
           undoEndedWith := some keep }

/-- Embeds `split_exr_script`: StartUndo, Lock, run the per-tool batch (which may
finish normally or raise), then the `finally` block runs `Unlock` and
`EndUndo(True)` exactly once, and any exception continues to propagate. -/
def split_exr_script_m (ε : Type) (batch : HostState → HostState × Except ε Unit)
    (s0 : HostState) : HostState × Except ε Unit :=
  let s1 := lockComp (startUndo s0)
  let br := batch s1
  (endUndo (unlockComp br.1) true, br.2)

/-! ## Layout arranger (`arrange_tools_table`, lines 376-389) -/

/-- Embeds `arrange_tools_table`: `none` models the IndexError from `tools[0]` on
an empty list with no origin given; otherwise the list of positions set for
the tools, in order.  The `max_rows` parameter is shadowed by the literal
`max_rows = 20` in the body, exactly as in the source (line 382). -/
def arrange_tools_table {τ : Type} (getPos : τ → Int × Int) (tools : List τ)
    (col_spacing : Int) (max_rows : Nat) (origin_tool : Option τ) :
    Option (List (Int × Int)) :=
  match (match origin_tool with | some t => some t | none => tools.head?) with
  | none => none
  | some ot =>
    let org_x_pos := (getPos ot).1
    let org_y_pos := (getPos ot).2
    let max_rows := 20
    some ((List.range tools.length).map
      (fun i => (org_x_pos + Int.ofNat (i / max_rows) * col_spacing,
                 org_y_pos + Int.ofNat (i % max_rows))))

example :
    split_channels ["VRayNormal.R", "VRayNormal.G", "Z", "VRayNormal.B"] =
      [("VRayNormal", [("r", "VRayNormal.R"), ("g", "VRayNormal.G"), ("b", "VRayNormal.B")]),
       ("default", [("z", "Z")])] := by decide

example :
    split_channels_spec ["VRayNormal.R", "VRayNormal.G", "Z", "VRayNormal.B"] =
      [("VRayNormal", [("r", "VRayNormal.R"), ("g", "VRayNormal.G"), ("b", "VRayNormal.B")]),
       ("default", [("z", "Z")])] := by decide

/-! ## Auxiliary definitions used by the theorems -/

/-- The error messages contributed by a channel list in the channel loop of the default
plugin. -/
def unknownErrs (l : Chans) : List String :=
  l.filterMap
    (fun p => match channel_mappings p.1 with
      | none => some ("Unknown channel: " ++ p.1)
      | some _ => none)

/-- Predicate picking out the node results of a plugin-result sequence. -/
def isNodeRes {τ : Type} : PRes τ → Bool
  | PRes.node _ => true
  | _ => false

/-! ## Theorems -/

/-- C1: for a layer with no `a` channel key, the claim says that with
`alpha_fallback` enabled and a `"default"` layer containing an `a` channel the
alpha slot of the new loader is bound to that channel.  On the code this is false:
`channels` is a list, so `channels.keys()` on line 187 raises
`AttributeError`; only the disabled half of the claim holds (the alpha slot
stays at the sentinel).  This theorem evaluates the embedded code at the
failing input. -/
theorem C1_alpha_fallback_code_bug :
    default_process_layer true [("default", [("a", "A")])] [("r", "layer1.R")]
      = Except.error "AttributeError: list object has no attribute keys"
    ∧ default_process_layer false [("default", [("a", "A")])] [("r", "layer1.R")]
      = Except.ok (default_channel_loop [("r", "layer1.R")])
    ∧ (default_channel_loop [("r", "layer1.R")]).1.AlphaName = CHANNEL_NO_MATCH := by
  exact ⟨rfl, rfl, rfl⟩

/-- C6: multi-part and multi-layer handling are mutually exclusive: a tool
reporting a part enumeration takes the multi-part path and never the
layer-grouping path; the multi-layer path is taken exactly when the tool is
an EXR loader that is not multi-part. -/
theorem C6_multipart_multilayer_exclusive (t : ToolM) :
    (is_multipart_exr t = true → split_exr_m t = SplitOutcome.multipart)
    ∧ (is_multipart_exr t = true → split_exr_m t ≠ SplitOutcome.multilayer)
    ∧ (split_exr_m t = SplitOutcome.multilayer ↔
        (is_multipart_exr t = false ∧ is_exr_loader t = true)) := by
  unfold split_exr_m
  by_cases h1 : is_multipart_exr t <;> by_cases h2 : is_exr_loader t <;>
    simp [h1, h2]

/-- Witness for C6 at a concrete multi-part EXR loader. -/
theorem C6_multipart_multilayer_exclusive_witness :
    is_multipart_exr ⟨"OpenEXRFormat", some "depth"⟩ = true
    ∧ split_exr_m ⟨"OpenEXRFormat", some "depth"⟩ = SplitOutcome.multipart :=
  ⟨by decide,
   (C6_multipart_multilayer_exclusive ⟨"OpenEXRFormat", some "depth"⟩).1 (by decide)⟩

/-- C10: a selected tool that is not an EXR loader reaches `if not new_tools:`
with `new_tools` unassigned, raising an uncaught NameError
(`UnboundLocalError`); hence the batch over selected tools completes without
error only if every selected Loader is an EXR loader. -/
theorem C10_non_exr_loader_name_error :
    (∀ t : ToolM, is_exr_loader t = false → split_exr_m t = SplitOutcome.nameError)
    ∧ (∀ tools : List ToolM, split_exr_batch tools = Except.ok () →
        ∀ t ∈ tools, is_exr_loader t = true) := by
  have h1 : ∀ t : ToolM, is_exr_loader t = false →
      split_exr_m t = SplitOutcome.nameError := by
    intro t h
    have h2 : is_multipart_exr t = false := by
      unfold is_multipart_exr
      simp [h]
    unfold split_exr_m
    simp [h, h2]
  refine ⟨h1, ?_⟩
  intro tools
  induction tools with
  | nil => intro _ t ht; exact absurd ht (List.not_mem_nil t)
  | cons hd tl ih =>
    intro hok t ht
    have hhd : is_exr_loader hd = true := by
      by_contra hcon
      have hf : is_exr_loader hd = false := by
        cases hv : is_exr_loader hd
        · rfl
        · exact absurd hv hcon
      have := h1 hd hf
      unfold split_exr_batch at hok
      rw [this] at hok
      exact absurd hok (by simp)
    rcases List.mem_cons.mp ht with rfl | htl
    · exact hhd
    · apply ih ?_ t htl
      unfold split_exr_batch at hok
      cases hv : split_exr_m hd with
      | nameError => rw [hv] at hok; exact absurd hok (by simp)
      | multipart => rw [hv] at hok; exact hok
      | multilayer => rw [hv] at hok; exact hok

/-- Witness for C10 at a concrete non-EXR loader. -/
theorem C10_non_exr_loader_name_error_witness :
    is_exr_loader ⟨"QuickTimeMovies", none⟩ = false
    ∧ split_exr_m ⟨"QuickTimeMovies", none⟩ = SplitOutcome.nameError
    ∧ split_exr_batch [⟨"QuickTimeMovies", none⟩]
        = Except.error "UnboundLocalError: local variable new_tools referenced before assignment" :=
  ⟨by decide,
   C10_non_exr_loader_name_error.1 ⟨"QuickTimeMovies", none⟩ (by decide),
   rfl⟩

/-- C8: whatever the per-node batch does—finish normally or raise—the
`finally` block unlocks the graph and closes the undo transaction (as a kept,
undoable action) exactly once after the batch, and the outcome of the batch
(including an exception) propagates unchanged. -/
theorem C8_lock_undo_always_released (ε : Type)
    (batch : HostState → HostState × Except ε Unit) (s0 : HostState) :
    (split_exr_script_m ε batch s0).1.locked = false
    ∧ (split_exr_script_m ε batch s0).1.undoOpen = false
    ∧ (split_exr_script_m ε batch s0).1.undoEndedWith = some true
    ∧ (split_exr_script_m ε batch s0).1.unlockCount
        = (batch (lockComp (startUndo s0))).1.unlockCount + 1
    ∧ (split_exr_script_m ε batch s0).1.endUndoCount
        = (batch (lockComp (startUndo s0))).1.endUndoCount + 1
    ∧ (split_exr_script_m ε batch s0).2 = (batch (lockComp (startUndo s0))).2 :=
  ⟨rfl, rfl, rfl, rfl, rfl, rfl⟩

/-- C5: in the domain-channel plugin, for a layer matched to the positional
mapping, with the flip option enabled channel key `g` is written to the
destination beginning with `Z` and channel key `b` to the destination
beginning with `Y`; with the option disabled `g` goes to `Y...` and `b` to
`Z...`. -/
theorem C5_worldpos_axis_flip (layer_name : String) (channels : Chans)
    (rg rb : String)
    (hfind : vray_find_mapping layer_name = some ("pos", "PosName"))
    (hg : ("g", rg) ∈ channels) (hb : ("b", rb) ∈ channels) :
    (∃ l, vray_process_layer true true layer_name channels = some l
        ∧ ("ZPosName", rg) ∈ l ∧ ("YPosName", rb) ∈ l)
    ∧ (∃ l, vray_process_layer true false layer_name channels = some l
        ∧ ("YPosName", rg) ∈ l ∧ ("ZPosName", rb) ∈ l)
    ∧ "Z".toList.isPrefixOf "ZPosName".toList = true
    ∧ "Y".toList.isPrefixOf "YPosName".toList = true := by
  have key1 : vray_process_layer true true layer_name channels
      = some (channels.map
          (fun p => (vray_channel_dest true "pos" "PosName" p.1, p.2))) := by
    simp [vray_process_layer, hfind]
  have key2 : vray_process_layer true false layer_name channels
      = some (channels.map
          (fun p => (vray_channel_dest false "pos" "PosName" p.1, p.2))) := by
    simp [vray_process_layer, hfind]
  refine ⟨⟨_, key1, ?_, ?_⟩, ⟨_, key2, ?_, ?_⟩, rfl, rfl⟩
  · exact List.mem_map.mpr ⟨("g", rg), hg, rfl⟩
  · exact List.mem_map.mpr ⟨("b", rb), hb, rfl⟩
  · exact List.mem_map.mpr ⟨("g", rg), hg, rfl⟩
  · exact List.mem_map.mpr ⟨("b", rb), hb, rfl⟩

/-- Witness for C5 on a concrete position layer. -/
theorem C5_worldpos_axis_flip_witness :
    vray_find_mapping "position" = some ("pos", "PosName")
    ∧ ("g", "position.G") ∈ ([("g", "position.G"), ("b", "position.B")] : Chans)
    ∧ (∃ l, vray_process_layer true true "position"
          [("g", "position.G"), ("b", "position.B")] = some l
        ∧ ("ZPosName", "position.G") ∈ l ∧ ("YPosName", "position.B") ∈ l) :=
  ⟨by decide, by decide,
   (C5_worldpos_axis_flip "position" [("g", "position.G"), ("b", "position.B")]
      "position.G" "position.B" (by decide) (by decide) (by decide)).1⟩

/-! Helper lemmas for C9: the error log accumulates independently of the
format slots, and the format slots are independent of the error log. -/

theorem defaultChannelStep_none (st : EXRFmt × List String) (p : String × String)
    (h : channel_mappings p.1 = none) :
    defaultChannelStep st p = (st.1, st.2 ++ ["Unknown channel: " ++ p.1]) := by
  unfold defaultChannelStep
  rw [h]

theorem defaultChannelStep_some (st : EXRFmt × List String) (p : String × String)
    (m : String) (h : channel_mappings p.1 = some m) :
    defaultChannelStep st p = (setFmtField st.1 m p.2, st.2) := by
  unfold defaultChannelStep
  rw [h]

theorem foldl_defaultChannelStep_snd (l : Chans) :
    ∀ (f : EXRFmt) (e : List String),
      (l.foldl defaultChannelStep (f, e)).2 = e ++ unknownErrs l := by
  induction l with
  | nil => intro f e; simp [unknownErrs]
  | cons p l ih =>
    intro f e
    cases h : channel_mappings p.1 with
    | none =>
      rw [List.foldl_cons, defaultChannelStep_none _ _ h, ih]
      simp [unknownErrs, h, List.filterMap_cons]
    | some m =>
      rw [List.foldl_cons, defaultChannelStep_some _ _ _ h, ih]
      simp [unknownErrs, h, List.filterMap_cons]

theorem foldl_defaultChannelStep_fst (l : Chans) :
    ∀ (f : EXRFmt) (e e' : List String),
      (l.foldl defaultChannelStep (f, e)).1 = (l.foldl defaultChannelStep (f, e')).1 := by
  induction l with
  | nil => intro f e e'; rfl
  | cons p l ih =>
    intro f e e'
    cases h : channel_mappings p.1 with
    | none =>
      rw [List.foldl_cons, defaultChannelStep_none _ _ h,
          List.foldl_cons, defaultChannelStep_none _ _ h]
      exact ih _ _ _
    | some m =>
      rw [List.foldl_cons, defaultChannelStep_some _ _ _ h,
          List.foldl_cons, defaultChannelStep_some _ _ _ h]
      exact ih _ _ _

/-- C9: in the channel loop of the default plugin, an unknown channel key is
logged at error level and skipped—the format slots end up exactly as if the
unknown channel were absent, the log records it between the errors of the
surrounding channels, and the layer is never aborted (the ok/error status of
`process_layer` is unaffected by the unknown channel). -/
theorem C9_unknown_channel_skipped (pre post : Chans) (c raw : String)
    (h : channel_mappings c = none) :
    (default_channel_loop (pre ++ (c, raw) :: post)).1
      = (default_channel_loop (pre ++ post)).1
    ∧ (default_channel_loop (pre ++ (c, raw) :: post)).2
      = (default_channel_loop pre).2
          ++ ("Unknown channel: " ++ c) :: (default_channel_loop post).2
    ∧ ∀ (b : Bool) (layers : List (String × Chans)),
        (default_process_layer b layers (pre ++ (c, raw) :: post)).isOk
          = (default_process_layer b layers (pre ++ post)).isOk := by
  refine ⟨?_, ?_, ?_⟩
  · unfold default_channel_loop
    rw [List.foldl_append, List.foldl_append, List.foldl_cons,
        defaultChannelStep_none _ _ h]
    have hsplit : List.foldl defaultChannelStep (initFmt, []) pre
        = ((List.foldl defaultChannelStep (initFmt, []) pre).1,
           (List.foldl defaultChannelStep (initFmt, []) pre).2) := rfl
    rw [hsplit]
    exact foldl_defaultChannelStep_fst post _ _ _
  · unfold default_channel_loop
    rw [List.foldl_append, List.foldl_cons, defaultChannelStep_none _ _ h]
    have hsplit : List.foldl defaultChannelStep (initFmt, []) pre
        = ((List.foldl defaultChannelStep (initFmt, []) pre).1,
           (List.foldl defaultChannelStep (initFmt, []) pre).2) := rfl
    rw [hsplit, foldl_defaultChannelStep_snd, foldl_defaultChannelStep_snd,
        foldl_defaultChannelStep_snd]
    simp
  · intro b layers
    cases b <;> rfl

/-- Witness for C9 with the unknown key `q` between known channels. -/
theorem C9_unknown_channel_skipped_witness :
    channel_mappings "q" = none
    ∧ (default_channel_loop ([("r", "L.R")] ++ ("q", "L.Q") :: [("g", "L.G")])).1
        = (default_channel_loop ([("r", "L.R")] ++ [("g", "L.G")])).1 :=
  ⟨by decide,
   (C9_unknown_channel_skipped [("r", "L.R")] [("g", "L.G")] "q" "L.Q" (by decide)).1⟩

/-! Helper lemmas for C4: threading of the `made_crypto` flag. -/

theorem crypto_run_cons (b : Bool) (ln : String) (rest : List String) :
    crypto_run b (ln :: rest)
      = (crypto_process_layer b ln).2
          :: crypto_run (crypto_process_layer b ln).1 rest := rfl

theorem crypto_flag_after_cons (b : Bool) (ln : String) (rest : List String) :
    crypto_flag_after b (ln :: rest)
      = crypto_flag_after (crypto_process_layer b ln).1 rest := by
  unfold crypto_flag_after
  rw [List.foldl_cons]

theorem crypto_run_append (l1 l2 : List String) :
    ∀ b : Bool, crypto_run b (l1 ++ l2)
      = crypto_run b l1 ++ crypto_run (crypto_flag_after b l1) l2 := by
  induction l1 with
  | nil => intro b; rfl
  | cons ln rest ih =>
    intro b
    rw [List.cons_append, crypto_run_cons, crypto_run_cons, ih,
        crypto_flag_after_cons, List.cons_append]

theorem crypto_step_fst_true (ln : String) :
    (crypto_process_layer true ln).1 = true := by
  unfold crypto_process_layer
  by_cases h : crypto_accepts ln <;> simp [h]

theorem crypto_flag_after_true (l : List String) :
    crypto_flag_after true l = true := by
  induction l with
  | nil => rfl
  | cons ln rest ih =>
    unfold crypto_flag_after
    rw [List.foldl_cons, crypto_step_fst_true]
    exact ih

theorem crypto_flag_after_false (l : List String) :
    crypto_flag_after false l = l.any crypto_accepts := by
  induction l with
  | nil => rfl
  | cons ln rest ih =>
    unfold crypto_flag_after
    rw [List.foldl_cons]
    by_cases h : crypto_accepts ln
    · have hstep : (crypto_process_layer false ln).1 = true := by
        unfold crypto_process_layer
        simp [h]
      rw [hstep]
      have := crypto_flag_after_true rest
      unfold crypto_flag_after at this
      rw [this]
      simp [h]
    · have hstep : (crypto_process_layer false ln).1 = false := by
        unfold crypto_process_layer
        simp [h]
      rw [hstep]
      have := ih
      unfold crypto_flag_after at this
      rw [this]
      simp [h]

theorem crypto_run_true_no_node (l : List String) :
    (crypto_run true l).countP isNodeRes = 0 := by
  induction l with
  | nil => rfl
  | cons ln rest ih =>
    unfold crypto_run
    rw [List.countP_cons, crypto_step_fst_true, ih]
    have : isNodeRes (crypto_process_layer true ln).2 = false := by
      unfold crypto_process_layer
      by_cases h : crypto_accepts ln <;> simp [h, isNodeRes]
    simp [this]

theorem crypto_run_length (l : List String) :
    ∀ b : Bool, (crypto_run b l).length = l.length := by
  induction l with
  | nil => intro b; rfl
  | cons ln rest ih =>
    intro b
    unfold crypto_run
    simp [ih]

/-- C4: within one splitting operation the matte plugin creates at most one
node: the run over the layers contains at most one node result; the first
layer whose name contains "crypto" (case-insensitively) yields the node
result, and any accepted layer preceded by an accepted layer yields the
truthy non-node result `other`, so no further node is created or recorded. -/
theorem C4_single_crypto_node (layers : List String) :
    (crypto_run false layers).countP isNodeRes ≤ 1
    ∧ ∀ pre ln post, layers = pre ++ ln :: post → crypto_accepts ln = true →
        ((∀ l ∈ pre, crypto_accepts l = false) →
          crypto_run false layers
            = crypto_run false pre ++ PRes.node () :: crypto_run true post)
        ∧ ((∃ l ∈ pre, crypto_accepts l = true) →
          (crypto_run false layers)[pre.length]? = some PRes.other) := by
  constructor
  · induction layers with
    | nil => simp [crypto_run]
    | cons ln rest ih =>
      unfold crypto_run
      rw [List.countP_cons]
      by_cases h : crypto_accepts ln
      · have hstep : crypto_process_layer false ln = (true, PRes.node ()) := by
          unfold crypto_process_layer
          simp [h]
        rw [hstep]
        simp [isNodeRes, crypto_run_true_no_node rest]
      · have hstep : crypto_process_layer false ln = (false, PRes.rejected) := by
          unfold crypto_process_layer
          simp [h]
        rw [hstep]
        simpa [isNodeRes] using ih
  · intro pre ln post hsplit hacc
    subst hsplit
    constructor
    · intro hnone
      rw [crypto_run_append, crypto_flag_after_false]
      have hany : pre.any crypto_accepts = false :=
        List.any_eq_false.mpr (by intro x hx; simp [hnone x hx])
      rw [hany]
      have hstep : crypto_process_layer false ln = (true, PRes.node ()) := by
        unfold crypto_process_layer
        simp [hacc]
      rw [crypto_run_cons, hstep]
    · intro hsome
      rw [crypto_run_append, crypto_flag_after_false]
      have hany : pre.any crypto_accepts = true := by
        rcases hsome with ⟨x, hx, hxacc⟩
        exact List.any_eq_true.mpr ⟨x, hx, hxacc⟩
      rw [hany]
      rw [List.getElem?_append_right (by rw [crypto_run_length]),
          crypto_run_length]
      simp only [Nat.sub_self]
      have hstep : crypto_process_layer true ln = (true, PRes.other) := by
        unfold crypto_process_layer
        simp [hacc]
      rw [crypto_run_cons, hstep]
      simp

/-- Witness for C4: three layers, two of which are crypto layers; the first
crypto layer yields the node, the second yields `other`. -/
theorem C4_single_crypto_node_witness :
    crypto_accepts "CryptoB" = true
    ∧ (∃ l, l ∈ ["cryptoA", "beauty"] ∧ crypto_accepts l = true)
    ∧ (crypto_run false ["cryptoA", "beauty", "CryptoB"])[2]? = some PRes.other :=
  ⟨by decide, ⟨"cryptoA", by decide, by decide⟩,
   ((C4_single_crypto_node ["cryptoA", "beauty", "CryptoB"]).2
      ["cryptoA", "beauty"] "CryptoB" [] rfl (by decide)).2
      ⟨"cryptoA", by decide, by decide⟩⟩

/-- C7: the layout arranger places the i-th new node (0-based) at row
`i % 20` and column `i / 20`, at position
`(origin_x + column * col_spacing, origin_y + row)`, reading the origin
position from the given origin node or, when none is given, from the first
new node; with 25 nodes, node index 20 lands one column-spacing unit right
of the origin, at the row of the origin. -/
theorem C7_grid_layout {τ : Type} (getPos : τ → Int × Int) (tools : List τ)
    (col_spacing : Int) (mr : Nat) :
    (∀ ot : τ, ∃ ps, arrange_tools_table getPos tools col_spacing mr (some ot) = some ps
      ∧ ps.length = tools.length
      ∧ ∀ i, i < tools.length →
          ps[i]? = some ((getPos ot).1 + Int.ofNat (i / 20) * col_spacing,
                         (getPos ot).2 + Int.ofNat (i % 20)))
    ∧ (∀ t0 rest, tools = t0 :: rest →
        ∃ ps, arrange_tools_table getPos tools col_spacing mr none = some ps
        ∧ ∀ i, i < tools.length →
            ps[i]? = some ((getPos t0).1 + Int.ofNat (i / 20) * col_spacing,
                           (getPos t0).2 + Int.ofNat (i % 20)))
    ∧ (∀ ot : τ, tools.length = 25 →
        ∃ ps, arrange_tools_table getPos tools col_spacing mr (some ot) = some ps
        ∧ ps[20]? = some ((getPos ot).1 + col_spacing, (getPos ot).2)) := by
  have hmain : ∀ ot : τ,
      arrange_tools_table getPos tools col_spacing mr (some ot)
        = some ((List.range tools.length).map
            (fun i => ((getPos ot).1 + Int.ofNat (i / 20) * col_spacing,
                       (getPos ot).2 + Int.ofNat (i % 20)))) := by
    intro ot
    rfl
  have hget : ∀ (ox oy : Int) (i : Nat), i < tools.length →
      ((List.range tools.length).map
        (fun i => (ox + Int.ofNat (i / 20) * col_spacing,
                   oy + Int.ofNat (i % 20))))[i]?
        = some (ox + Int.ofNat (i / 20) * col_spacing, oy + Int.ofNat (i % 20)) := by
    intro ox oy i hi
    rw [List.getElem?_map, List.getElem?_range hi]
    rfl
  refine ⟨?_, ?_, ?_⟩
  · intro ot
    refine ⟨_, hmain ot, by simp, ?_⟩
    intro i hi
    exact hget _ _ i hi
  · intro t0 rest hcons
    have hdef : arrange_tools_table getPos tools col_spacing mr none
        = some ((List.range tools.length).map
            (fun i => ((getPos t0).1 + Int.ofNat (i / 20) * col_spacing,
                       (getPos t0).2 + Int.ofNat (i % 20)))) := by
      subst hcons
      rfl
    refine ⟨_, hdef, ?_⟩
    intro i hi
    exact hget _ _ i hi
  · intro ot h25
    refine ⟨_, hmain ot, ?_⟩
    have h20 : (20 : Nat) < tools.length := by omega
    rw [hget _ _ 20 h20]
    norm_num

/-- Witness for C7: 25 tools, origin at (7, 11), column spacing 3; index 20
sits at (10, 11). -/
theorem C7_grid_layout_witness :
    (List.range 25).length = 25
    ∧ ∃ ps, arrange_tools_table (fun _ => ((7 : Int), (11 : Int))) (List.range 25)
        3 20 (some 0) = some ps
      ∧ ps[20]? = some (10, 11) :=
  ⟨by decide,
   by
    obtain ⟨ps, hps, hget⟩ :=
      (C7_grid_layout (fun _ => ((7 : Int), (11 : Int))) (List.range 25) 3 20).2.2
        0 (by decide)
    exact ⟨ps, hps, by rw [hget]; norm_num⟩⟩

/-! Helper lemmas for C3: the dispatch loop and the created-node list. -/

theorem dispatch_layer_cons {τ : Type} (q : String → Chans → PRes τ)
    (L : List (String → Chans → PRes τ)) (ln : String) (cs : Chans) :
    dispatch_layer (q :: L) ln cs
      = match q ln cs with
        | PRes.rejected => dispatch_layer L ln cs
        | r => some r := rfl

theorem dispatch_layer_pre_rejected {τ : Type}
    (pre post : List (String → Chans → PRes τ)) (ln : String) (cs : Chans)
    (hpre : ∀ q ∈ pre, q ln cs = PRes.rejected) :
    dispatch_layer (pre ++ post) ln cs = dispatch_layer post ln cs := by
  induction pre with
  | nil => rfl
  | cons q pre ih =>
    rw [List.cons_append, dispatch_layer_cons, hpre q (List.mem_cons_self q pre)]
    exact ih (fun q hq => hpre q (List.mem_cons_of_mem _ hq))

theorem dispatch_layer_all_rejected {τ : Type}
    (plugins : List (String → Chans → PRes τ)) (ln : String) (cs : Chans)
    (h : ∀ q ∈ plugins, q ln cs = PRes.rejected) :
    dispatch_layer plugins ln cs = none := by
  induction plugins with
  | nil => rfl
  | cons q L ih =>
    rw [dispatch_layer_cons, h q (List.mem_cons_self q L)]
    exact ih (fun q hq => h q (List.mem_cons_of_mem _ hq))

theorem process_layers_acc {τ : Type} (plugins : List (String → Chans → PRes τ)) :
    ∀ (layers : List (String × Chans)) (acc : List τ),
      layers.foldl
        (fun new_tools l =>
          match dispatch_layer plugins l.1 l.2 with
          | some (PRes.node t) => new_tools ++ [t]
          | _ => new_tools) acc
      = acc ++ process_layers plugins layers := by
  intro layers
  induction layers with
  | nil => intro acc; simp [process_layers]
  | cons l rest ih =>
    intro acc
    unfold process_layers
    rw [List.foldl_cons, List.foldl_cons]
    cases hd : dispatch_layer plugins l.1 l.2 with
    | none =>
      simp only [hd]
      rw [ih acc]
      rfl
    | some r =>
      cases r with
      | rejected =>
        simp only [hd]
        rw [ih acc]
        rfl
      | node t =>
        simp only [hd, List.nil_append]
        rw [ih (acc ++ [t]), ih [t]]
        simp
      | other =>
        simp only [hd]
        rw [ih acc]
        rfl

theorem process_layers_append {τ : Type} (plugins : List (String → Chans → PRes τ))
    (A B : List (String × Chans)) :
    process_layers plugins (A ++ B)
      = process_layers plugins A ++ process_layers plugins B := by
  have h := process_layers_acc plugins B (process_layers plugins A)
  unfold process_layers
  rw [List.foldl_append]
  unfold process_layers at h
  exact h

theorem process_layers_singleton {τ : Type}
    (plugins : List (String → Chans → PRes τ)) (ln : String) (cs : Chans) :
    process_layers plugins [(ln, cs)]
      = match dispatch_layer plugins ln cs with
        | some (PRes.node t) => [t]
        | _ => [] := by
  unfold process_layers
  rw [List.foldl_cons, List.foldl_nil]
  cases hd : dispatch_layer plugins ln cs with
  | none => simp
  | some r => cases r <;> simp

/-- C3: for every layer the dispatch loop consults the plugins in their
configured order until the first non-false result; a node-like result is
appended (once, in place) to the created-node list and dispatch stops; any
other truthy result stops dispatch without recording a node; and if every
plugin rejects, the layer contributes nothing and no error is raised. -/
theorem C3_first_plugin_wins {τ : Type}
    (pre post : List (String → Chans → PRes τ)) (p : String → Chans → PRes τ)
    (ln : String) (cs : Chans) (L1 L2 : List (String × Chans))
    (hpre : ∀ q ∈ pre, q ln cs = PRes.rejected) :
    (p ln cs ≠ PRes.rejected →
      dispatch_layer (pre ++ p :: post) ln cs = some (p ln cs))
    ∧ (∀ t, p ln cs = PRes.node t →
      process_layers (pre ++ p :: post) (L1 ++ (ln, cs) :: L2)
        = process_layers (pre ++ p :: post) L1
            ++ t :: process_layers (pre ++ p :: post) L2)
    ∧ (p ln cs = PRes.other →
      process_layers (pre ++ p :: post) (L1 ++ (ln, cs) :: L2)
        = process_layers (pre ++ p :: post) L1
            ++ process_layers (pre ++ p :: post) L2)
    ∧ ((∀ q ∈ pre ++ p :: post, q ln cs = PRes.rejected) →
      dispatch_layer (pre ++ p :: post) ln cs = none
      ∧ process_layers (pre ++ p :: post) (L1 ++ (ln, cs) :: L2)
        = process_layers (pre ++ p :: post) L1
            ++ process_layers (pre ++ p :: post) L2) := by
  have hsplit : L1 ++ (ln, cs) :: L2 = (L1 ++ [(ln, cs)]) ++ L2 := by simp
  have hfirst : p ln cs ≠ PRes.rejected →
      dispatch_layer (pre ++ p :: post) ln cs = some (p ln cs) := by
    intro hr
    rw [dispatch_layer_pre_rejected pre (p :: post) ln cs hpre,
        dispatch_layer_cons]
    cases hv : p ln cs with
    | rejected => exact absurd hv hr
    | node t => rfl
    | other => rfl
  refine ⟨hfirst, ?_, ?_, ?_⟩
  · intro t ht
    rw [hsplit, process_layers_append, process_layers_append,
        process_layers_singleton,
        hfirst (by rw [ht]; intro hcon; cases hcon), ht]
    simp
  · intro ht
    rw [hsplit, process_layers_append, process_layers_append,
        process_layers_singleton,
        hfirst (by rw [ht]; intro hcon; cases hcon), ht]
    simp
  · intro hall
    have hnone : dispatch_layer (pre ++ p :: post) ln cs = none :=
      dispatch_layer_all_rejected _ ln cs hall
    refine ⟨hnone, ?_⟩
    rw [hsplit, process_layers_append, process_layers_append,
        process_layers_singleton, hnone]
    simp

/-- Witness for C3: one rejecting plugin before a node-producing plugin. -/
theorem C3_first_plugin_wins_witness :
    ((fun _ _ => PRes.rejected : String → Chans → PRes Nat) "beauty" [] = PRes.rejected)
    ∧ dispatch_layer
        [(fun _ _ => PRes.rejected : String → Chans → PRes Nat),
         (fun _ _ => PRes.node 5)] "beauty" []
      = some (PRes.node 5) :=
  ⟨rfl,
   (C3_first_plugin_wins [(fun _ _ => PRes.rejected : String → Chans → PRes Nat)]
      [] (fun _ _ => PRes.node 5) "beauty" [] [] []
      (by intro q hq; rw [List.mem_singleton] at hq; rw [hq])).1
    (by intro hcon; cases hcon)⟩

/-! Helper lemmas for C2: the source grouping loop equals the spec-side
grouping (first-seen layer order, in-order channel lists). -/

theorem channelLayerKey_eq_spec (c : String) :
    channelLayerKey c = (specLayerName c, specChanKey c) := by
  unfold channelLayerKey specLayerName specChanKey namespace_separator
  by_cases h : (splitSep '.' c.toList).length > 1
  · simp only [if_pos h]
  · simp only [if_neg h]

theorem split_channels_snoc (cs : List String) (c : String) :
    split_channels (cs ++ [c])
      = addChan (split_channels cs) (specLayerName c) (specChanKey c, c) := by
  unfold split_channels
  rw [List.foldl_append, List.foldl_cons, List.foldl_nil, channelLayerKey_eq_spec]

theorem firstSeen_snoc (xs : List String) (x : String) :
    firstSeen (xs ++ [x])
      = if x ∈ firstSeen xs then firstSeen xs else firstSeen xs ++ [x] := by
  unfold firstSeen
  rw [List.foldl_append, List.foldl_cons, List.foldl_nil]

theorem mem_firstSeen_foldl (xs : List String) :
    ∀ (acc : List String) (y : String),
      (y ∈ xs.foldl (fun acc x => if x ∈ acc then acc else acc ++ [x]) acc
        ↔ y ∈ acc ∨ y ∈ xs) := by
  induction xs with
  | nil => intro acc y; simp
  | cons x xs ih =>
    intro acc y
    rw [List.foldl_cons]
    by_cases h : x ∈ acc
    · rw [if_pos h, ih]
      constructor
      · rintro (hy | hy)
        · exact Or.inl hy
        · exact Or.inr (List.mem_cons_of_mem _ hy)
      · rintro (hy | hy)
        · exact Or.inl hy
        · rcases List.mem_cons.mp hy with rfl | hy2
          · exact Or.inl h
          · exact Or.inr hy2
    · rw [if_neg h, ih]
      constructor
      · rintro (hy | hy)
        · rcases List.mem_append.mp hy with hy2 | hy2
          · exact Or.inl hy2
          · rw [List.mem_singleton] at hy2
            exact Or.inr (hy2 ▸ List.mem_cons_self x xs)
        · exact Or.inr (List.mem_cons_of_mem _ hy)
      · rintro (hy | hy)
        · exact Or.inl (List.mem_append.mpr (Or.inl hy))
        · rcases List.mem_cons.mp hy with rfl | hy2
          · exact Or.inl (List.mem_append.mpr (Or.inr (List.mem_singleton.mpr rfl)))
          · exact Or.inr hy2

theorem mem_firstSeen (xs : List String) (y : String) :
    y ∈ firstSeen xs ↔ y ∈ xs := by
  unfold firstSeen
  rw [mem_firstSeen_foldl]
  simp

theorem firstSeen_foldl_nodup (xs : List String) :
    ∀ acc : List String, acc.Nodup →
      (xs.foldl (fun acc x => if x ∈ acc then acc else acc ++ [x]) acc).Nodup := by
  induction xs with
  | nil => intro acc h; exact h
  | cons x xs ih =>
    intro acc h
    rw [List.foldl_cons]
    by_cases hx : x ∈ acc
    · rw [if_pos hx]; exact ih acc h
    · rw [if_neg hx]
      apply ih
      rw [List.nodup_append]
      refine ⟨h, List.nodup_singleton x, ?_⟩
      intro a ha hax
      rw [List.mem_singleton] at hax
      exact hx (hax ▸ ha)

theorem firstSeen_nodup (xs : List String) : (firstSeen xs).Nodup :=
  firstSeen_foldl_nodup xs [] List.nodup_nil

theorem addChan_not_mem (L : List (String × Chans)) (n : String)
    (pr : String × String) (h : ∀ p ∈ L, p.1 ≠ n) :
    addChan L n pr = L ++ [(n, [pr])] := by
  induction L with
  | nil => rfl
  | cons hd tl ih =>
    obtain ⟨m, ps⟩ := hd
    have hm : m ≠ n := h (m, ps) (List.mem_cons_self _ _)
    unfold addChan
    rw [if_neg hm, ih (fun p hp => h p (List.mem_cons_of_mem _ hp))]
    rfl

theorem addChan_mem (L1 L2 : List (String × Chans)) (n : String) (ps : Chans)
    (pr : String × String) (h : ∀ p ∈ L1, p.1 ≠ n) :
    addChan (L1 ++ (n, ps) :: L2) n pr = L1 ++ (n, ps ++ [pr]) :: L2 := by
  induction L1 with
  | nil =>
    rw [List.nil_append, List.nil_append]
    unfold addChan
    rw [if_pos rfl]
  | cons hd tl ih =>
    obtain ⟨m, qs⟩ := hd
    have hm : m ≠ n := h (m, qs) (List.mem_cons_self _ _)
    rw [List.cons_append]
    unfold addChan
    rw [if_neg hm, ih (fun p hp => h p (List.mem_cons_of_mem _ hp))]
    rfl

theorem split_channels_spec_snoc (cs : List String) (c : String) :
    split_channels_spec (cs ++ [c])
      = addChan (split_channels_spec cs) (specLayerName c) (specChanKey c, c) := by
  by_cases hmem : specLayerName c ∈ cs.map specLayerName
  case neg =>
    have hfs : specLayerName c ∉ firstSeen (cs.map specLayerName) := by
      rw [mem_firstSeen]; exact hmem
    have hradd : addChan (split_channels_spec cs) (specLayerName c) (specChanKey c, c)
        = split_channels_spec cs ++ [(specLayerName c, [(specChanKey c, c)])] := by
      apply addChan_not_mem
      intro p hp
      unfold split_channels_spec at hp
      rcases List.mem_map.mp hp with ⟨l, hl, rfl⟩
      intro hcon
      exact hfs (hcon ▸ hl)
    rw [hradd]
    unfold split_channels_spec
    rw [List.map_append, List.map_cons, List.map_nil, firstSeen_snoc,
        if_neg hfs, List.map_append, List.map_cons, List.map_nil]
    congr 1
    · apply List.map_congr_left
      intro l hl
      have hne : specLayerName c ≠ l := by
        intro hcon
        exact hfs (hcon ▸ hl)
      rw [List.filter_append]
      have hfc : List.filter (fun c2 => decide (specLayerName c2 = l)) [c] = [] := by
        simp [hne]
      rw [hfc, List.append_nil]
    · have hfc2 : List.filter (fun c2 => decide (specLayerName c2 = specLayerName c)) cs
          = [] := by
        rw [List.filter_eq_nil_iff]
        intro a ha
        simp only [decide_eq_true_eq]
        intro hcon
        exact hmem (hcon ▸ List.mem_map_of_mem specLayerName ha)
      rw [List.filter_append, hfc2, List.nil_append]
      simp
  case pos =>
    have hfs : specLayerName c ∈ firstSeen (cs.map specLayerName) := by
      rw [mem_firstSeen]; exact hmem
    rcases List.append_of_mem hfs with ⟨F1, F2, hF⟩
    have hnd : (firstSeen (cs.map specLayerName)).Nodup := firstSeen_nodup _
    rw [hF, List.nodup_append] at hnd
    obtain ⟨hndF1, hndcons, hdisj⟩ := hnd
    have hn1 : specLayerName c ∉ F1 := by
      intro hcon
      exact hdisj hcon (List.mem_cons_self _ _)
    have hn2 : specLayerName c ∉ F2 := by
      have := List.nodup_cons.mp hndcons
      exact this.1
    unfold split_channels_spec
    rw [List.map_append, List.map_cons, List.map_nil, firstSeen_snoc, if_pos hfs,
        hF, List.map_append, List.map_cons, List.map_append, List.map_cons]
    have hmapF1 : ∀ (ds : List String), ds = F1 ∨ ds = F2 →
        List.map (fun l => (l, List.map (fun c2 => (specChanKey c2, c2))
            (List.filter (fun c2 => decide (specLayerName c2 = l)) (cs ++ [c])))) ds
        = List.map (fun l => (l, List.map (fun c2 => (specChanKey c2, c2))
            (List.filter (fun c2 => decide (specLayerName c2 = l)) cs))) ds := by
      intro ds hds
      apply List.map_congr_left
      intro l hl
      have hne : specLayerName c ≠ l := by
        intro hcon
        rcases hds with rfl | rfl
        · exact hn1 (hcon ▸ hl)
        · exact hn2 (hcon ▸ hl)
      rw [List.filter_append]
      have hfc : List.filter (fun c2 => decide (specLayerName c2 = l)) [c] = [] := by
        simp [hne]
      rw [hfc, List.append_nil]
    rw [hmapF1 F1 (Or.inl rfl), hmapF1 F2 (Or.inr rfl)]
    have haddl : addChan
        (List.map (fun l => (l, List.map (fun c2 => (specChanKey c2, c2))
            (List.filter (fun c2 => decide (specLayerName c2 = l)) cs))) F1
          ++ (specLayerName c, List.map (fun c2 => (specChanKey c2, c2))
              (List.filter (fun c2 => decide (specLayerName c2 = specLayerName c)) cs))
            :: List.map (fun l => (l, List.map (fun c2 => (specChanKey c2, c2))
                (List.filter (fun c2 => decide (specLayerName c2 = l)) cs))) F2)
        (specLayerName c) (specChanKey c, c)
        = List.map (fun l => (l, List.map (fun c2 => (specChanKey c2, c2))
            (List.filter (fun c2 => decide (specLayerName c2 = l)) cs))) F1
          ++ (specLayerName c, (List.map (fun c2 => (specChanKey c2, c2))
              (List.filter (fun c2 => decide (specLayerName c2 = specLayerName c)) cs))
                ++ [(specChanKey c, c)])
            :: List.map (fun l => (l, List.map (fun c2 => (specChanKey c2, c2))
                (List.filter (fun c2 => decide (specLayerName c2 = l)) cs))) F2 := by
      apply addChan_mem
      intro p hp
      rcases List.mem_map.mp hp with ⟨l, hl, rfl⟩
      intro hcon
      exact hn1 (hcon ▸ hl)
    rw [haddl]
    congr 2
    rw [List.filter_append]
    have hfc : List.filter
        (fun c2 => decide (specLayerName c2 = specLayerName c)) [c]
        = [c] := by simp
    rw [hfc, List.map_append, List.map_cons, List.map_nil]

/-- C2: the grouping by the parser of raw channel identifiers equals the
spec-side description: identifiers with several dot-separated segments are
grouped under the dot-joined prefix with the lower-cased last segment as
channel key, one-segment identifiers under the layer `"default"` with the
lower-cased identifier as key; the pair list of each layer preserves input
order, and layers are iterated in first-seen order. -/
theorem C2_parser_matches_spec (cs : List String) :
    split_channels cs = split_channels_spec cs := by
  induction cs using List.reverseRecOn with
  | nil => rfl
  | append_singleton cs c ih =>
    rw [split_channels_snoc, split_channels_spec_snoc, ih]

end PaSplitEXR
